import Mathlib

/-!
Shallow embedding of the authentication gateway of CineSync
(src/WebDavHub/pkg/auth/auth.go) and proofs about its specification.

Modelling conventions:
- Go strings are Lean strings; byte slices obtained by a string conversion
  are modelled injectively as the list of character code points.
- Time is modelled as a natural number of Unix seconds; every call to
  time.Now inside one handler invocation is modelled as the same instant.
- The JWT library (golang-jwt/jwt/v5) is external to the repository; its
  HMAC signing primitive is abstracted as an explicit function argument,
  and its parse/verify pipeline is modelled from the spec.
- Environment reads (os.Getenv, env.GetString, env.IsBool) are modelled as
  explicit parameters, since the env package is not part of the sources.
-/

namespace CineSync

/-- Model of strings.HasPrefix(s, p) from the Go standard library: p is a
prefix of s. -/
def strStartsWith (s p : String) : Bool :=
  p.data.isPrefixOf s.data

/-- Model of strings.TrimPrefix(s, p) from the Go standard library: drop p
from the front of s when it is a prefix, otherwise return s unchanged. -/
def trimPfx (s p : String) : String :=
  if p.data.isPrefixOf s.data then String.mk (s.data.drop p.data.length) else s

/-- The literal allow-list of public endpoints from isAuthEndpoint
(auth.go lines 35-86), in source order. -/
def authEndpoints : List String :=
  ["/api/health",
   "/api/auth/enabled",
   "/api/auth/test",
   "/api/auth/login",
   "/api/auth/check",
   "/api/download",
   "/api/config-status",
   "/api/config",
   "/api/config/update",
   "/api/config/update-silent",
   "/api/config/events",
   "/api/mediahub/message",
   "/api/mediahub/events",
   "/api/mediahub/logs",
   "/api/mediahub/logs/export",
   "/api/file-operations",
   "/api/file-operations/bulk",
   "/api/file-operations/events",
   "/api/source-browse",
   "/api/database/source-files",
   "/api/database/source-scans",
   "/api/dashboard/events",
   "/api/database/stats",
   "/api/database/search",
   "/api/database/export",
   "/api/stats",
   "/api/jobs",
   "/api/python-bridge/terminate",
   "/api/v3/system/status",
   "/api/system/status",
   "/api/v3/health",
   "/api/v3/rootfolder",
   "/api/v3/qualityprofile",
   "/api/v3/language",
   "/api/v3/languageprofile",
   "/api/v3/tag",
   "/api/v3/movie",
   "/api/v3/moviefile",
   "/api/v3/series",
   "/api/v3/episode",
   "/api/v3/episodefile",
   "/api/v3/images/movies/MediaCover",
   "/api/v3/images/series/MediaCover",
   "/api/spoofing/config",
   "/api/spoofing/switch",
   "/api/spoofing/regenerate-key",
   "/images/movies/MediaCover",
   "/images/series/MediaCover",
   "/MediaCover",
   "/api"]

/-- Model of isAuthEndpoint (auth.go lines 34-97): a path is public when it
equals a listed endpoint or starts with a listed endpoint followed by a
slash. -/
def isAuthEndpoint (path : String) : Bool :=
  authEndpoints.any fun e => path == e || strStartsWith path (e ++ "/")

/-- Credentials as in auth.go lines 20-23. -/
structure Credentials where
  username : String
  password : String
deriving DecidableEq

/-- Byte-level view of a Go string: []byte(s) is modelled injectively as
the list of character code points. -/
def strBytes (s : String) : List Nat :=
  s.data.map Char.toNat

/-- Model of crypto/subtle.ConstantTimeCompare from the Go standard
library: 0 when the lengths differ, otherwise it ors together the
byte-wise xors and returns 1 exactly when the accumulator stayed 0. -/
def constantTimeCompare (x y : List Nat) : Nat :=
  if x.length ≠ y.length then 0
  else if (List.zipWith (· ^^^ ·) x y).foldl (· ||| ·) 0 = 0 then 1 else 0

/-- Model of validateCredentials (auth.go lines 100-104). The stored
credentials come from GetCredentials, which reads the environment; they
are passed in explicitly. -/
def validateCredentials (stored : Credentials) (username password : String) : Bool :=
  (constantTimeCompare (strBytes username) (strBytes stored.username) == 1) &&
  (constantTimeCompare (strBytes password) (strBytes stored.password) == 1)

/-- Outcome of a request-guarding middleware: pass to the next handler, or
reject with an HTTP status and an error message. -/
inductive GateResult where
  | forward
  | reject (status : Nat) (msg : String)
deriving DecidableEq

/-- The parts of an inbound HTTP request that JWTMiddleware inspects:
r.URL.Path, the Authorization header (empty string when absent) and the
token query parameter (empty string when absent). -/
structure Request where
  path : String
  authHeader : String
  tokenQuery : String

/-- The auth-enabled flag as computed inline by JWTMiddleware
(auth.go lines 135-138): enabled unless CINESYNC_AUTH_ENABLED is the
string false or the string 0. -/
def authEnabledFromEnv (v : String) : Bool :=
  !(v == "false" || v == "0")

/-- Model of JWTMiddleware (auth.go lines 126-168). The jwt.ParseWithClaims
success test is abstracted as the predicate verifyOk on the token string;
authEnabledEnv is the value of the CINESYNC_AUTH_ENABLED variable. -/
def JWTMiddleware (verifyOk : String → Bool) (authEnabledEnv : String)
    (r : Request) : GateResult :=
  if isAuthEndpoint r.path || strStartsWith r.path "/static/" then .forward
  else if !(authEnabledFromEnv authEnabledEnv) then .forward
  else
    let tokenStr :=
      if strStartsWith r.authHeader "Bearer " then trimPfx r.authHeader "Bearer "
      else if r.tokenQuery != "" then r.tokenQuery
      else ""
    if tokenStr == "" then
      .reject 401 "Missing or invalid Authorization header or token parameter"
    else if verifyOk tokenStr then .forward
    else .reject 401 "Invalid or expired token"

/-- Claims carried by a token, as in JWTClaims (auth.go lines 107-110):
the username plus the registered issued-at and expires-at timestamps,
in Unix seconds. -/
structure TokenPayload where
  username : String
  issuedAt : Nat
  expiresAt : Nat
deriving DecidableEq

/-- A signed token: its payload together with its MAC signature. -/
structure Token where
  payload : TokenPayload
  sig : List Nat
deriving DecidableEq

/-- Verification failures distinguished by the verifier (for logging
only): bad or missing signature, or signature fine but past expiry. -/
inductive VerifyError where
  | invalidSignature
  | expired
deriving DecidableEq

/-- Model of GenerateJWT (auth.go lines 113-123). The HMAC-SHA256 signing
primitive of the external jwt library is abstracted as the function mac
from secret and payload to signature; both time.Now calls are modelled as
the same instant now. -/
def GenerateJWT (mac : List Nat → TokenPayload → List Nat) (secret : List Nat)
    (username : String) (now : Nat) : Token :=
  let p : TokenPayload :=
    { username := username, issuedAt := now, expiresAt := now + 24 * 60 * 60 }
  { payload := p, sig := mac secret p }

/-- Modelled from the spec: the parse-and-verify pipeline of the external
jwt library (jwt.ParseWithClaims with the process secret, as called at
auth.go lines 158-160), which is not part of this repository. A token is
accepted exactly when its signature matches the MAC of its payload under
the verifying secret and the current time is before its expiry; a
signature mismatch and an expired token are classified separately. -/
def verifyToken (mac : List Nat → TokenPayload → List Nat) (secret : List Nat)
    (now : Nat) (t : Token) : Except VerifyError String :=
  if t.sig = mac secret t.payload then
    if now < t.payload.expiresAt then .ok t.payload.username
    else .error .expired
  else .error .invalidSignature

/-- Response of the identity endpoint: HTTP status plus the username field
of the JSON body when present. -/
structure MeResponse where
  status : Nat
  username : Option String
deriving DecidableEq

/-- Model of HandleMe (auth.go lines 248-271). The input is the token
parsed from the Authorization header: none when the header is missing or
does not start with Bearer. -/
def HandleMe (mac : List Nat → TokenPayload → List Nat) (secret : List Nat)
    (now : Nat) (bearerTok : Option Token) : MeResponse :=
  match bearerTok with
  | none => { status := 401, username := none }
  | some t =>
    match verifyToken mac secret now t with
    | .error _ => { status := 401, username := none }
    | .ok u => { status := 200, username := some u }

/-- Response of the auth-check endpoint: HTTP status plus the two boolean
fields of its JSON body. -/
structure AuthCheckResponse where
  status : Nat
  isAuthenticated : Bool
  authEnabled : Bool
deriving DecidableEq

/-- Model of HandleAuthCheck (auth.go lines 199-216). The jwt parse
success test is abstracted as verifyOk; header is the Authorization
header value. Note the authEnabled field of the response is the literal
true in the source (line 214), not a configuration read. -/
def HandleAuthCheck (verifyOk : String → Bool) (header : String) : AuthCheckResponse :=
  let valid := strStartsWith header "Bearer " && verifyOk (trimPfx header "Bearer ")
  { status := 200, isAuthenticated := valid, authEnabled := true }

/-- Outcome of the Basic-auth middleware: pass through, or reject with a
status and the value of the WWW-Authenticate challenge header. -/
inductive BasicResult where
  | forward
  | reject (status : Nat) (challengeHeader : String)
deriving DecidableEq

/-- Model of BasicAuthMiddleware (auth.go lines 219-245). The enabled
flag is the result of env.IsBool on CINESYNC_AUTH_ENABLED (defaulting to
true; the env package is outside the sources, so the flag is passed as a
boolean). basicCreds is the outcome of r.BasicAuth: none when no valid
Basic header is present. The request path is only logged in the source;
it is kept as a parameter to state path-independence. -/
def BasicAuthMiddleware (enabled : Bool) (stored : Credentials)
    (basicCreds : Option (String × String)) (path : String) : BasicResult :=
  if !enabled then .forward
  else
    match basicCreds with
    | none => .reject 401 "Basic realm=\"Restricted\""
    | some (u, p) =>
      if !validateCredentials stored u p then .reject 401 "Basic realm=\"Restricted\""
      else .forward

/-- Response of the login endpoint: HTTP status, the plain-text error
message written by http.Error (empty on success), and the token field of
the JSON body on success. -/
structure LoginResult where
  status : Nat
  message : String
  token : Option String
deriving DecidableEq

/-- Model of HandleLogin (auth.go lines 171-196). The JSON body decode is
abstracted as an Option Credentials (none when undecodable) and
GenerateJWT with its possible signing error as genTok (none on signing
failure). -/
def HandleLogin (stored : Credentials) (genTok : String → Option String)
    (method : String) (body : Option Credentials) : LoginResult :=
  if method ≠ "POST" then { status := 405, message := "Method not allowed", token := none }
  else
    match body with
    | none => { status := 400, message := "Invalid request body", token := none }
    | some c =>
      if !validateCredentials stored c.username c.password then
        { status := 401, message := "Invalid credentials", token := none }
      else
        match genTok c.username with
        | none => { status := 500, message := "Failed to generate token", token := none }
        | some t => { status := 200, message := "", token := some t }

/-! Helper lemmas. -/

theorem lor_eq_zero_iff (a b : Nat) : (a ||| b) = 0 ↔ a = 0 ∧ b = 0 := by
  constructor
  · intro h
    have hh : ∀ i, (a.testBit i || b.testBit i) = false := by
      intro i
      have hc := congrArg (fun n => Nat.testBit n i) h
      simpa [Nat.testBit_or] using hc
    constructor
    · apply Nat.eq_of_testBit_eq
      intro i
      simp [(Bool.or_eq_false_iff.mp (hh i)).1]
    · apply Nat.eq_of_testBit_eq
      intro i
      simp [(Bool.or_eq_false_iff.mp (hh i)).2]
  · rintro ⟨rfl, rfl⟩
    rfl

theorem foldl_lor_eq_zero (l : List Nat) :
    ∀ a : Nat, l.foldl (· ||| ·) a = 0 ↔ (a = 0 ∧ ∀ x ∈ l, x = 0) := by
  induction l with
  | nil => intro a; simp
  | cons h t ih =>
    intro a
    simp only [List.foldl_cons, ih, lor_eq_zero_iff, List.mem_cons]
    constructor
    · rintro ⟨⟨ha, hh⟩, ht⟩
      refine ⟨ha, ?_⟩
      rintro x (rfl | hx)
      · exact hh
      · exact ht x hx
    · rintro ⟨ha, hall⟩
      exact ⟨⟨ha, hall h (Or.inl rfl)⟩, fun x hx => hall x (Or.inr hx)⟩

theorem zipWith_xor_eq_zero_iff (x : List Nat) :
    ∀ y : List Nat, x.length = y.length →
      ((∀ z ∈ List.zipWith (· ^^^ ·) x y, z = 0) ↔ x = y) := by
  induction x with
  | nil =>
    intro y hl
    cases y with
    | nil => simp
    | cons b bs => simp at hl
  | cons a as ih =>
    intro y hl
    cases y with
    | nil => simp at hl
    | cons b bs =>
      have hl2 : as.length = bs.length := by simpa using hl
      simp only [List.zipWith_cons_cons, List.mem_cons, List.cons.injEq]
      constructor
      · intro hall
        have hab : a = b := Nat.xor_eq_zero.mp (hall _ (Or.inl rfl))
        exact ⟨hab, (ih bs hl2).mp fun z hz => hall z (Or.inr hz)⟩
      · rintro ⟨rfl, rfl⟩
        rintro z (rfl | hz)
        · simp
        · exact ((ih as hl2).mpr rfl) z hz

theorem constantTimeCompare_eq_one (x y : List Nat) :
    constantTimeCompare x y = 1 ↔ x = y := by
  unfold constantTimeCompare
  by_cases hl : x.length = y.length
  · simp only [hl, ne_eq, not_true_eq_false, if_false]
    by_cases h0 : (List.zipWith (· ^^^ ·) x y).foldl (· ||| ·) 0 = 0
    · have hall : ∀ z ∈ List.zipWith (· ^^^ ·) x y, z = 0 :=
        ((foldl_lor_eq_zero _ 0).mp h0).2
      rw [if_pos h0]
      exact iff_of_true rfl ((zipWith_xor_eq_zero_iff x y hl).mp hall)
    · have hne : x ≠ y := by
        intro hxy
        apply h0
        refine (foldl_lor_eq_zero _ 0).mpr ⟨rfl, ?_⟩
        exact fun z hz => ((zipWith_xor_eq_zero_iff x y hl).mpr hxy) z hz
      rw [if_neg h0]
      exact iff_of_false (by simp) hne
  · have hne : x ≠ y := fun e => hl (e ▸ rfl)
    simp [hl, hne]

theorem charToNat_injective : Function.Injective Char.toNat := by
  intro a b h
  have hc := congrArg Char.ofNat h
  simpa [Char.ofNat_toNat] using hc

theorem strBytes_inj (s t : String) : strBytes s = strBytes t ↔ s = t := by
  constructor
  · intro h
    have hd : s.data = t.data :=
      (List.map_injective_iff.mpr charToNat_injective) h
    cases s with
    | mk d1 =>
      cases t with
      | mk d2 =>
        exact congrArg String.mk (by simpa using hd)
  · rintro rfl
    rfl

theorem isPrefixOf_iff_append (l₁ : List Char) :
    ∀ l₂ : List Char, l₁.isPrefixOf l₂ = true ↔ ∃ t, l₂ = l₁ ++ t := by
  induction l₁ with
  | nil =>
    intro l₂
    simp [List.isPrefixOf]
  | cons a as ih =>
    intro l₂
    cases l₂ with
    | nil => simp [List.isPrefixOf]
    | cons b bs =>
      simp only [List.isPrefixOf, Bool.and_eq_true, beq_iff_eq, ih bs,
        List.cons_append, List.cons.injEq]
      constructor
      · rintro ⟨rfl, t, rfl⟩
        exact ⟨t, rfl, rfl⟩
      · rintro ⟨t, rfl, rfl⟩
        exact ⟨rfl, t, rfl⟩

theorem strStartsWith_iff (s p : String) :
    strStartsWith s p = true ↔ ∃ t, s = p ++ t := by
  unfold strStartsWith
  rw [isPrefixOf_iff_append]
  constructor
  · rintro ⟨t, ht⟩
    refine ⟨String.mk t, ?_⟩
    cases s with
    | mk d =>
      cases p with
      | mk pd =>
        simp only at ht
        show String.mk d = String.mk (pd ++ t)
        exact congrArg String.mk ht
  · rintro ⟨t, rfl⟩
    exact ⟨t.data, by simp⟩

/-! Claim theorems. -/

/-- C1: because the allow-list contains the bare entry /api, every path
equal to /api or starting with /api/ is classified as an auth endpoint,
and JWTMiddleware forwards such a request to the next handler for every
verification predicate and every value of the auth-enabled environment
variable, so no token is extracted or verified. -/
theorem api_requests_bypass_auth (verifyOk : String → Bool)
    (envVal header query path : String)
    (h : path = "/api" ∨ strStartsWith path "/api/" = true) :
    isAuthEndpoint path = true ∧
    JWTMiddleware verifyOk envVal
      { path := path, authHeader := header, tokenQuery := query } = .forward := by
  have hmem : "/api" ∈ authEndpoints := by decide
  have hpred : (path == "/api" || strStartsWith path ("/api" ++ "/")) = true := by
    rcases h with rfl | hp
    · simp
    · rw [show ("/api" ++ "/" : String) = "/api/" from rfl, hp]
      simp
  have hend : isAuthEndpoint path = true :=
    List.any_eq_true.mpr ⟨"/api", hmem, hpred⟩
  refine ⟨hend, ?_⟩
  unfold JWTMiddleware
  simp [hend]

/-- C1 witness: the concrete path /api/database/drop-everything is
forwarded without verification even with auth enabled and a verifier that
rejects every token. -/
theorem api_requests_bypass_auth_witness :
    isAuthEndpoint "/api/database/drop-everything" = true ∧
    JWTMiddleware (fun _ => false) "true"
      { path := "/api/database/drop-everything", authHeader := "", tokenQuery := "" } =
      .forward :=
  api_requests_bypass_auth (fun _ => false) "true" "" "" "/api/database/drop-everything"
    (Or.inr (by decide))

/-- C3: validateCredentials accepts exactly when both the attempted
username and the attempted password equal the stored ones, with no
partial or case-insensitive matches. -/
theorem validateCredentials_iff (stored : Credentials) (u2 p2 : String) :
    validateCredentials stored u2 p2 = true ↔
      (u2 = stored.username ∧ p2 = stored.password) := by
  simp [validateCredentials, beq_iff_eq, constantTimeCompare_eq_one, strBytes_inj]

/-- C5: round trip. Verifying a freshly issued token for username u under
the same secret and at the issuance instant succeeds and returns u, and
the identity endpoint answers 200 with that username. -/
theorem issue_verify_round_trip (mac : List Nat → TokenPayload → List Nat)
    (secret : List Nat) (u : String) (now : Nat) :
    verifyToken mac secret now (GenerateJWT mac secret u now) = .ok u ∧
    HandleMe mac secret now (some (GenerateJWT mac secret u now)) =
      { status := 200, username := some u } := by
  have hv : verifyToken mac secret now (GenerateJWT mac secret u now) = .ok u := by
    unfold verifyToken GenerateJWT
    simp
  refine ⟨hv, ?_⟩
  simp [HandleMe, hv]

/-- C8: when the auth-enabled environment variable disables auth (value
false or 0), JWTMiddleware forwards every request, whatever the token
situation and the verifier. -/
theorem jwt_disabled_forwards (verifyOk : String → Bool) (v : String)
    (r : Request) (h : v = "false" ∨ v = "0") :
    JWTMiddleware verifyOk v r = .forward := by
  have hc : authEnabledFromEnv v = false := by
    rcases h with rfl | rfl <;> decide
  unfold JWTMiddleware
  by_cases hp : (isAuthEndpoint r.path || strStartsWith r.path "/static/") = true
  · simp [hp]
  · simp [hp, hc]

/-- C8 witness: with the variable set to 0, a non-public path with no
token and a rejecting verifier is still forwarded. -/
theorem jwt_disabled_forwards_witness :
    JWTMiddleware (fun _ => false) "0"
      { path := "/secret", authHeader := "", tokenQuery := "" } = .forward :=
  jwt_disabled_forwards (fun _ => false) "0"
    { path := "/secret", authHeader := "", tokenQuery := "" } (Or.inr rfl)

/-- C2: a token verifies successfully exactly when its signature is the
MAC of its payload under the verifying secret and the current time is
before its expiry; issuance sets the expiry to exactly issued-at plus 24
hours; a valid-signature token past its expiry fails with the
expiry-classified error; a token whose signature does not match the
verifying secret fails with the signature error whatever its claimed
expiry. -/
theorem token_verification_spec (mac : List Nat → TokenPayload → List Nat)
    (secret : List Nat) (now : Nat) (t : Token) (u : String) (n : Nat) :
    ((∃ v, verifyToken mac secret now t = .ok v) ↔
      (t.sig = mac secret t.payload ∧ now < t.payload.expiresAt)) ∧
    ((GenerateJWT mac secret u n).payload.expiresAt =
      (GenerateJWT mac secret u n).payload.issuedAt + 24 * 60 * 60) ∧
    (t.sig = mac secret t.payload → t.payload.expiresAt ≤ now →
      verifyToken mac secret now t = .error .expired) ∧
    (t.sig ≠ mac secret t.payload →
      verifyToken mac secret now t = .error .invalidSignature) := by
  refine ⟨?_, rfl, ?_, ?_⟩
  · by_cases hs : t.sig = mac secret t.payload
    · by_cases he : now < t.payload.expiresAt
      · exact iff_of_true ⟨t.payload.username, by simp [verifyToken, hs, he]⟩ ⟨hs, he⟩
      · refine iff_of_false ?_ fun hc => he hc.2
        rintro ⟨v, hv⟩
        simp [verifyToken, hs, he] at hv
    · refine iff_of_false ?_ fun hc => hs hc.1
      rintro ⟨v, hv⟩
      simp [verifyToken, hs] at hv
  · intro hs he
    simp [verifyToken, hs, Nat.not_lt.mpr he]
  · intro hs
    simp [verifyToken, hs]

/-- C2 witness: a concrete token with a matching signature whose expiry
(86400) is past the current time (100000) fails with the expired error. -/
theorem token_verification_spec_witness :
    verifyToken (fun s p => s ++ [p.issuedAt, p.expiresAt]) [7] 100000
      { payload := { username := "admin", issuedAt := 0, expiresAt := 86400 },
        sig := [7, 0, 86400] } = .error .expired :=
  (token_verification_spec (fun s p => s ++ [p.issuedAt, p.expiresAt]) [7] 100000
    { payload := { username := "admin", issuedAt := 0, expiresAt := 86400 },
      sig := [7, 0, 86400] } "admin" 0).2.2.1 rfl (by decide)

/-- C6: the public-path test of the Bearer gateway holds for a path
exactly when the path equals a listed endpoint, or extends a listed
endpoint past a slash boundary, or lies under the static-assets root; in
particular /api matches itself and /api/x while /apiextra matches
nothing. The classifier is a total function, so it has no failure
modes. -/
theorem public_path_iff (path : String) :
    ((isAuthEndpoint path || strStartsWith path "/static/") = true ↔
      ((∃ e, e ∈ authEndpoints ∧ (path = e ∨ ∃ rest, path = (e ++ "/") ++ rest)) ∨
        ∃ rest, path = ("/static/" : String) ++ rest)) ∧
    isAuthEndpoint "/api" = true ∧
    isAuthEndpoint "/api/x" = true ∧
    isAuthEndpoint "/apiextra" = false := by
  refine ⟨?_, by decide, by decide, by decide⟩
  simp only [Bool.or_eq_true, isAuthEndpoint, List.any_eq_true, beq_iff_eq,
    strStartsWith_iff]

/-- C7 counterexample: with the auth-enabled variable set to false the
flag is disabled, yet the auth-check response still reports authEnabled
as true, so the response does not reflect the configured flag. -/
theorem authCheck_flag_counterexample :
    authEnabledFromEnv "false" = false ∧
    (HandleAuthCheck (fun _ => false) "").authEnabled = true :=
  ⟨rfl, rfl⟩

/-- C7 amended: the auth-check endpoint always answers 200 (never 401)
with a body carrying isAuthenticated and authEnabled; isAuthenticated is
true exactly when the Authorization header carries a Bearer token that
verifies; authEnabled is the hardcoded literal true, independent of
configuration. -/
theorem authCheck_contract (verifyOk : String → Bool) (header : String) :
    (HandleAuthCheck verifyOk header).status = 200 ∧
    (HandleAuthCheck verifyOk header).isAuthenticated =
      (strStartsWith header "Bearer " && verifyOk (trimPfx header "Bearer ")) ∧
    (HandleAuthCheck verifyOk header).authEnabled = true :=
  ⟨rfl, rfl, rfl⟩

/-- C9: with auth enabled, the Basic gateway rejects with 401 and the
challenge header exactly when Basic credentials are absent or fail
validation, forwards exactly when they validate, produces no other
outcome, and treats every path alike (no public-path exemption). -/
theorem basic_gateway_spec (enabled : Bool) (stored : Credentials)
    (creds : Option (String × String)) (p1 p2 : String) (h : enabled = true) :
    (BasicAuthMiddleware enabled stored creds p1 =
        .reject 401 "Basic realm=\"Restricted\"" ↔
      (creds = none ∨ ∃ u p, creds = some (u, p) ∧
        validateCredentials stored u p = false)) ∧
    (BasicAuthMiddleware enabled stored creds p1 = .forward ↔
      ∃ u p, creds = some (u, p) ∧ validateCredentials stored u p = true) ∧
    (BasicAuthMiddleware enabled stored creds p1 = .forward ∨
      BasicAuthMiddleware enabled stored creds p1 =
        .reject 401 "Basic realm=\"Restricted\"") ∧
    BasicAuthMiddleware enabled stored creds p1 =
      BasicAuthMiddleware enabled stored creds p2 := by
  subst h
  cases creds with
  | none =>
    refine ⟨?_, ?_, ?_, rfl⟩ <;> simp [BasicAuthMiddleware]
  | some up =>
    obtain ⟨u, p⟩ := up
    by_cases hv : validateCredentials stored u p = true
    · refine ⟨?_, ?_, ?_, rfl⟩
      · simp [BasicAuthMiddleware, hv]
      · simp only [BasicAuthMiddleware, hv]
        simp [hv]
        exact ⟨u, p, ⟨rfl, rfl⟩, hv⟩
      · simp [BasicAuthMiddleware, hv]
    · have hv2 : validateCredentials stored u p = false := by
        cases hb : validateCredentials stored u p
        · rfl
        · exact absurd hb hv
      refine ⟨?_, ?_, ?_, rfl⟩
      · simp [BasicAuthMiddleware, hv2]
        exact ⟨u, p, ⟨rfl, rfl⟩, hv2⟩
      · simp [BasicAuthMiddleware, hv2]
      · simp [BasicAuthMiddleware, hv2]

/-- C9 witness: with auth enabled and no Basic header the gateway rejects
with 401 and the Restricted-realm challenge. -/
theorem basic_gateway_spec_witness :
    BasicAuthMiddleware true { username := "admin", password := "admin" }
      none "/a" = .reject 401 "Basic realm=\"Restricted\"" :=
  ((basic_gateway_spec true { username := "admin", password := "admin" }
    none "/a" "/b" rfl).1).mpr (Or.inl rfl)

/-- C10: the login endpoint answers 405 to a non-POST method, 400 to an
undecodable body, 401 with the fixed field-agnostic message to failing
credentials, 500 when token signing fails, and otherwise 200 carrying the
freshly issued token. -/
theorem login_contract (stored : Credentials) (genTok : String → Option String)
    (method : String) (body : Option Credentials) :
    (method ≠ "POST" →
      HandleLogin stored genTok method body =
        { status := 405, message := "Method not allowed", token := none }) ∧
    (method = "POST" → body = none →
      HandleLogin stored genTok method body =
        { status := 400, message := "Invalid request body", token := none }) ∧
    (∀ c, method = "POST" → body = some c →
      validateCredentials stored c.username c.password = false →
      HandleLogin stored genTok method body =
        { status := 401, message := "Invalid credentials", token := none }) ∧
    (∀ c, method = "POST" → body = some c →
      validateCredentials stored c.username c.password = true →
      genTok c.username = none →
      HandleLogin stored genTok method body =
        { status := 500, message := "Failed to generate token", token := none }) ∧
    (∀ c tk, method = "POST" → body = some c →
      validateCredentials stored c.username c.password = true →
      genTok c.username = some tk →
      HandleLogin stored genTok method body =
        { status := 200, message := "", token := some tk }) := by
  refine ⟨?_, ?_, ?_, ?_, ?_⟩
  · intro hm
    simp [HandleLogin, hm]
  · rintro rfl rfl
    simp [HandleLogin]
  · rintro c rfl rfl hv
    simp [HandleLogin, hv]
  · rintro c rfl rfl hv hg
    simp [HandleLogin, hv, hg]
  · rintro c tk rfl rfl hv hg
    simp [HandleLogin, hv, hg]

/-- C10 witness: a GET request to the login endpoint is answered 405. -/
theorem login_contract_witness :
    HandleLogin { username := "admin", password := "admin" }
      (fun u => some (String.append "tok-" u)) "GET" none =
      { status := 405, message := "Method not allowed", token := none } :=
  (login_contract { username := "admin", password := "admin" }
    (fun u => some (String.append "tok-" u)) "GET" none).1 (by decide)

end CineSync
